import Mathlib

/-!
Verification development for the `Sounder` sound-playback helper
(`src/Sounder.js`).  The definitions below are a shallow embedding of the
source: JavaScript values are modelled by `JsVal`, sound specifications and
the instance configuration by explicit structures, promise chains by
`Except`-valued computations (a settled promise is either resolved, `.ok`,
or rejected, `.error`), and the preparation flags by a small state machine
stepped by events.  The host page's media primitives (element creation,
`canPlayType`, `play`/`pause`) are injected as explicit parameters, matching
the spec's requirement that those collaborators be treated as black boxes.
-/

namespace Sounder

/-- A JavaScript value as it appears in the option objects handled by the
source: a boolean, a number, a string, or `undefined` (absent field). -/
inductive JsVal
  | vBool (b : Bool)
  | vNum (q : Rat)
  | vStr (s : String)
  | vUndefined
deriving DecidableEq, Repr

/-- JavaScript truthiness for the values above (`if (attrVal) ...` in the
source): `false`, `0`, `""` and `undefined` are falsy. -/
def truthy : JsVal → Bool
  | .vBool b => b
  | .vNum q => decide (q ≠ 0)
  | .vStr s => decide (s ≠ "")
  | .vUndefined => false

/-- `typeof v === "boolean"` -/
def typeofBoolean : JsVal → Bool
  | .vBool _ => true
  | _ => false

/-- `typeof v === "string"` -/
def typeofString : JsVal → Bool
  | .vStr _ => true
  | _ => false

/-- `typeof v === "number"` -/
def typeofNumber : JsVal → Bool
  | .vNum _ => true
  | _ => false

/-- The five recognized audio attributes (`this.__attrs` in the source). -/
inductive Attr
  | autoplay | loop | muted | preload | volume
deriving DecidableEq, Repr

/-- The list `this.__attrs`, in source order. -/
def attrsList : List Attr := [.autoplay, .loop, .muted, .preload, .volume]

/-- A sound specification object as provided by the caller.  A field holds
`some v` exactly when the JavaScript object has that own property
(`hasOwnProperty`). -/
structure SoundSpec where
  name : Option String := none
  autoplay : Option JsVal := none
  loop : Option JsVal := none
  muted : Option JsVal := none
  preload : Option JsVal := none
  volume : Option JsVal := none
deriving DecidableEq, Repr

/-- `sound[attr]` / `sound.hasOwnProperty(attr)` for the five attributes. -/
def specAttr (s : SoundSpec) : Attr → Option JsVal
  | .autoplay => s.autoplay
  | .loop => s.loop
  | .muted => s.muted
  | .preload => s.preload
  | .volume => s.volume

/-- A `<source>` child of an `<audio>` element: its `src` path and the
string written into its `type` attribute. -/
structure SourceElem where
  src : String
  mime : String
deriving DecidableEq, Repr

/-- An `<audio>` element: the HTML attributes written onto it (in write
order) and its `<source>` children (in append order). -/
structure AudioElem where
  attrs : List (Attr × JsVal) := []
  sources : List SourceElem := []
deriving DecidableEq, Repr

/-- An entry of the registry `this.__sounds`: the sound data object plus
the media handle attached by preparation (`sound.audio`). -/
structure SoundEntry where
  data : SoundSpec
  audio : Option AudioElem := none
deriving DecidableEq, Repr

/-- Association-list lookup for element attributes. -/
def attrLookup : List (Attr × JsVal) → Attr → Option JsVal
  | [], _ => none
  | (k, v) :: rest, a => if k = a then some v else attrLookup rest a

-- Audio extensions (`Sounder.OGG` etc.).

def OGG : String := "ogg"

def MP4 : String := "mp4"

def MP3 : String := "mp3"

def WAV : String := "wav"

def AAC : String := "aac"

-- Audio capability-query type strings (`Sounder.OGG_TYPE` etc.).

def OGG_TYPE : String := "audio/ogg; codecs=\"vorbis\""

def MP4_TYPE : String := "audio/mp4; codecs=\"mp4a.40.5\""

def MP3_TYPE : String := "audio/mpeg;"

def WAV_TYPE : String := "audio/wav; codecs=\"1\""

def AAC_TYPE : String := "audio/mp4; codecs=\"mp4a.40.2\""

/-- `this.__exts.all`, in source order. -/
def extsAll : List String := [WAV, OGG, AAC, MP3, MP4]

/-- The property lookup `Sounder[ext.toUpperCase() + "_TYPE"]`. -/
def typeFor : String → Option String
  | "OGG" => some OGG_TYPE
  | "MP4" => some MP4_TYPE
  | "MP3" => some MP3_TYPE
  | "WAV" => some WAV_TYPE
  | "AAC" => some AAC_TYPE
  | _ => none

/-- `Sounder.__getAudioType`: fails on a falsy extension and on an
extension with no catalog entry. -/
def getAudioType (ext : String) : Except String String :=
  if ext = "" then .error ("Got incorrect audio extension: " ++ ext ++ ".")
  else
    match typeFor (String.mk (ext.data.map Char.toUpper)) with
    | some t => .ok t
    | none => .error "Failed at looking for audio type."

/-- Whether the first list starts the second (pattern, text). -/
def leadsWith : List Char → List Char → Bool
  | [], _ => true
  | _ :: _, [] => false
  | p :: ps, c :: cs => p = c && leadsWith ps cs

/-- Whether the first list occurs as a contiguous run of the second
(pattern, text). -/
def hasSub (pat : List Char) : List Char → Bool
  | [] => leadsWith pat []
  | c :: cs => leadsWith pat (c :: cs) || hasSub pat cs

/-- Remove the first occurrence of the pattern from the text. -/
def dropFirstOcc (pat : List Char) : List Char → List Char
  | [] => []
  | c :: cs =>
      if leadsWith pat (c :: cs) then (c :: cs).drop pat.length
      else c :: dropFirstOcc pat cs

/-- JavaScript `s.replace(pat, "")` with a plain (non-global) pattern:
remove the first occurrence of `pat` from `s`. -/
def removeFirst (s pat : String) : String :=
  String.mk (dropFirstOcc pat.data s.data)

/-- The host capability query: `none` models an audio element without a
`canPlayType` method, `some f` models `canPlayType` returning `f typeString`
(typically `""`, `"maybe"` or `"probably"`). -/
abbrev Host := Option (String → String)

/-- `Sounder.__canPlayExt`: short-circuits to `false` when the host has no
`canPlayType` (so `__getAudioType` is not evaluated); otherwise queries the
host with the catalog type string and applies the source's truthiness test
`!!(... .replace(/no/, ''))`. -/
def canPlayExt (host : Host) (ext : String) : Except String Bool :=
  match host with
  | none => .ok false
  | some f => do
      let t ← getAudioType ext
      pure (decide (removeFirst (f t) "no" ≠ ""))

/-- `canPlayExt` collapsed to a boolean (errors count as not playable);
used to phrase "the first playable element" via `List.find?`. -/
def canPlayB (host : Host) (ext : String) : Bool :=
  match canPlayExt host ext with
  | .ok b => b
  | .error _ => false

/-- The scanning loop of `Sounder.prototype.__getExtFromAvailableExts`:
return the first extension the browser can play, propagating any exception
thrown by `__canPlayExt`. -/
def scanExts (host : Host) : List String → Except String String
  | [] => .error "Failed at looking for audio extension browser can play!"
  | e :: rest => do
      let b ← canPlayExt host e
      if b then pure e else scanExts host rest

/-- `Sounder.prototype.__getExtFromAvailableExts` (the non-array guard is
enforced by the list type). -/
def getExtFromAvailableExts (host : Host) (exts : List String) : Except String String :=
  if exts.isEmpty then .error "There are no available extensions."
  else scanExts host exts

-- Browser classifier (`Sounder.prototype.__getBrowserName`).

/-- Case-insensitive substring test, modelling `/pat/i.test(s)` for the
literal patterns used by the classifier (`pat` is given in lower case). -/
def testCI (s pat : String) : Bool := hasSub pat.data (s.data.map Char.toLower)

/-- The `isOpera` closure: `/opera|opr/i.test(ua)`. -/
def operaCond (ua : String) : Bool := testCI ua "opera" || testCI ua "opr"

/-- The Chrome condition: `/chrome/i.test(ua) && /google inc\./i.test(v)
&& !isOpera()`. -/
def chromeCond (v ua : String) : Bool :=
  testCI ua "chrome" && testCI v "google inc." && !(operaCond ua)

/-- `Sounder.prototype.__getBrowserName`, with the two environment strings
(vendor, user agent) injected as parameters. -/
def getBrowserName (v ua : String) : String :=
  if chromeCond v ua then "chrome"
  else if testCI ua "firefox" then "firefox"
  else if operaCond ua then "opera"
  else if testCI ua "msie" then "explorer"
  else if testCI ua "edge" then "edge"
  else if testCI v "apple computer, inc." then "safari"
  else ""

/-- `Sounder.prototype.__getBrowserExts`: the per-browser preference table
`this.__exts`, with the unknown browser (empty name) mapped to `all`. -/
def getBrowserExts (v ua : String) : List String :=
  let b := getBrowserName v ua
  if b = "firefox" then [OGG, MP3, WAV]
  else if b = "chrome" then [OGG, MP4, MP3, WAV, AAC]
  else if b = "opera" then [OGG]
  else if b = "safari" then [MP4, MP3, WAV, AAC]
  else if b = "explorer" then [MP3]
  else if b = "edge" then [MP4, MP3, WAV, AAC]
  else extsAll

-- Instance construction.

/-- The construction configuration object (`params`); a `JsVal` field is
`vUndefined` when absent, `sounds` is `none` when absent or not an array
(`Array.isArray` guard in `__prepareSounds`). -/
structure Params where
  sounds : Option (List SoundSpec) := none
  path : JsVal := .vUndefined
  autoplay : JsVal := .vUndefined
  loop : JsVal := .vUndefined
  muted : JsVal := .vUndefined
  preload : JsVal := .vUndefined
  volume : JsVal := .vUndefined

/-- `Sounder.prototype.__getDefSoundParams`, per attribute. -/
def defSoundParams : Attr → JsVal
  | .autoplay => .vBool false
  | .loop => .vBool false
  | .muted => .vBool false
  | .preload => .vBool true
  | .volume => .vNum 1

/-- `$.extend(this.__getDefSoundParams(), sound)`: the merged object owns
all five attributes, each the spec's own value when present, else the
static per-sound default. -/
def mergeDefSoundParams (s : SoundSpec) : SoundSpec where
  name := s.name
  autoplay := some (s.autoplay.getD (defSoundParams .autoplay))
  loop := some (s.loop.getD (defSoundParams .loop))
  muted := some (s.muted.getD (defSoundParams .muted))
  preload := some (s.preload.getD (defSoundParams .preload))
  volume := some (s.volume.getD (defSoundParams .volume))

/-- `Sounder.prototype.__prepareSounds` on an array argument: throws
`"Got incorrect sound name."` at the first spec whose `name` is falsy
(absent or empty), otherwise merges each spec over the static per-sound
defaults.  (A non-array argument is replaced by `[]` before this runs,
modelled by the caller passing `[]`.) -/
def prepareSounds : List SoundSpec → Except String (List SoundSpec)
  | [] => .ok []
  | s :: rest =>
      if s.name.getD "" = "" then .error "Got incorrect sound name."
      else do
        let r ← prepareSounds rest
        pure (mergeDefSoundParams s :: r)

/-- The state of a constructed `Sounder` instance that the preparation and
playback code reads: the browser preference list computed at construction,
the registry `this.__sounds`, and the parsed instance-wide option fields
`__path`, `__autoplay`, `__loop`, `__muted`, `__preload`, `__volume`.
`autoplayI` stays a `JsVal` because the constructor's `typeof` test keeps a
string value and otherwise stores the boolean `false`. -/
structure Inst where
  browserExts : List String
  sounds : List SoundEntry
  path : String
  autoplayI : JsVal
  loopI : Bool
  mutedI : Bool
  preloadI : Bool
  volumeI : Rat
deriving DecidableEq, Repr

/-- The `Sounder` constructor body: registry construction (which can
throw), then the `typeof`-guarded parsing of each instance-wide option.
Note the source tests `typeof params.autoplay === "string"` (line 99),
unlike the `"boolean"` tests of its siblings. -/
def mkSounder (v ua : String) (p : Params) : Except String Inst := do
  let merged ← prepareSounds (p.sounds.getD [])
  pure
    { browserExts := getBrowserExts v ua
      sounds := merged.map fun s => { data := s, audio := none }
      path := match p.path with | .vStr s => s | _ => ""
      autoplayI := if typeofString p.autoplay then p.autoplay else .vBool false
      loopI := match p.loop with | .vBool b => b | _ => false
      mutedI := match p.muted with | .vBool b => b | _ => false
      preloadI := match p.preload with | .vBool b => b | _ => true
      volumeI := match p.volume with | .vNum q => q | _ => 1 }

-- Attribute application (`__getAudioAttrVal`, `__setAudioElemAttr(s)`).

/-- `this["__" + attr]`: the instance-level attribute defaults as read by
`__getAudioAttrVal`. -/
def instAttrVal (inst : Inst) : Attr → JsVal
  | .autoplay => inst.autoplayI
  | .loop => .vBool inst.loopI
  | .muted => .vBool inst.mutedI
  | .preload => .vBool inst.preloadI
  | .volume => .vNum inst.volumeI

/-- `Sounder.prototype.__getAudioAttrVal`:
`sound.hasOwnProperty(attr) ? sound[attr] : this["__" + attr]`. -/
def getAudioAttrVal (inst : Inst) (attr : Attr) (s : SoundSpec) : JsVal :=
  match specAttr s attr with
  | some v => v
  | none => instAttrVal inst attr

/-- `Sounder.prototype.__setAudioElemAttr`: resolve the value and call
`setAttribute` only when it is truthy. -/
def setAudioElemAttr (inst : Inst) (attr : Attr) (s : SoundSpec) (a : AudioElem) : AudioElem :=
  let v := getAudioAttrVal inst attr s
  if truthy v then { a with attrs := a.attrs ++ [(attr, v)] } else a

/-- `Sounder.prototype.__setAudioElemAttrs`: apply the five attributes in
the order of `this.__attrs`. -/
def setAudioElemAttrs (inst : Inst) (s : SoundSpec) (a : AudioElem) : AudioElem :=
  attrsList.foldl (fun acc attr => setAudioElemAttr inst attr s acc) a

/-- The settlement behaviour of a promise: resolved, rejected, or never
settling.  `hang` models the source's orphaned-rejection executors: a
`new Promise` executor that merely returns an inner chain without wiring
its rejection to `error` leaves the outer promise forever pending when
that chain rejects. -/
inductive Settle (α : Type)
  | ok (a : α)
  | err (e : String)
  | hang
deriving DecidableEq, Repr

/-- `.then` on a promise: the handler maps a resolution; a rejection
passes through; a hanging promise runs no handler. -/
def Settle.map {α β : Type} (f : α → β) : Settle α → Settle β
  | .ok a => .ok (f a)
  | .err e => .err e
  | .hang => .hang

/-- The resolution value, when the promise resolved. -/
def Settle.toOption {α : Type} : Settle α → Option α
  | .ok a => some a
  | .err _ => none
  | .hang => none

/-- Whether the promise never settles. -/
def Settle.isHang {α : Type} : Settle α → Bool
  | .hang => true
  | _ => false

-- Source attachment.

/-- `Sounder.prototype.__getSoundPath` (via `__getSoundPathBase`):
`this.__path + name + "." + ext`, behind `validateExtStrict`. -/
def getSoundPath (inst : Inst) (name ext : String) : Except String String :=
  if extsAll.contains ext then .ok (inst.path ++ name ++ "." ++ ext)
  else .error "Got invalid audio extension."

/-- `Sounder.prototype.__makeAudioElemSource`: validate the extension and
build the `<source>` element with `src` from `__getSoundPath` and the
`type` attribute `"audio/" + ext`. -/
def makeAudioElemSource (inst : Inst) (name ext : String) : Except String SourceElem :=
  if extsAll.contains ext then do
    let p ← getSoundPath inst name ext
    pure { src := p, mime := "audio/" ++ ext }
  else .error "Got invalid audio extension."

/-- `Sounder.prototype.__getAvailableExts`: rejects on a falsy sound name,
otherwise resolves with the browser preference list (the network probe in
the source is commented out). -/
def getAvailableExts (inst : Inst) (name : String) : Except String (List String) :=
  if name = "" then .error "Got incorrect sound name."
  else .ok inst.browserExts

/-- `Sounder.prototype.__getAvailableExt`: first playable extension of the
browser preference list. -/
def getAvailableExt (host : Host) (inst : Inst) (name : String) : Except String String := do
  let exts ← getAvailableExts inst name
  getExtFromAvailableExts host exts

/-- `Sounder.prototype.__setAudioElemSource`: the executor returns the
`__getAvailableExt(name).then(...)` chain without wiring its rejection to
`error`, so when extension resolution rejects (falsy name, capability
throw, no playable format) — or when `__makeAudioElemSource` throws
inside the inner `.then` callback — that rejection is orphaned and the
returned promise never settles.  It rejects only through the callback's
explicit `error(...)` on a falsy resolved extension, and resolves after
appending exactly one `<source>` child. -/
def setAudioElemSource (host : Host) (inst : Inst) (name : String) (a : AudioElem) :
    Settle AudioElem :=
  match getAvailableExt host inst name with
  | .error _ => .hang
  | .ok ext =>
      if ext = "" then .err "No available extension of sound were found at server!"
      else
        match makeAudioElemSource inst name ext with
        | .error _ => .hang
        | .ok src => .ok { a with sources := a.sources ++ [src] }

/-- `Sounder.prototype.__makeAudioElem` for a sound object that does not
already own a valid media handle (the documented input — every entry built
by the constructor or passed to `addSounds` as a plain spec): create a
fresh element, apply the attributes, then wire the source promise through
`.then(success).catch(error)` — a resolution is forwarded to `success`
with the sound now owning its element, a rejection to `error`, and a
hanging source promise leaves this promise unsettled too. -/
def makeAudioElem (host : Host) (inst : Inst) (s : SoundSpec) : Settle SoundEntry :=
  let a1 := setAudioElemAttrs inst s {}
  match setAudioElemSource host inst (s.name.getD "") a1 with
  | .ok a2 => .ok { data := s, audio := some a2 }
  | .err e => .err e
  | .hang => .hang

/-- `Sounder.prototype.__makeAudioElemsFromData`: each per-sound promise
is chained `.then(push).catch(warn)`, so a resolved sound is collected, a
rejected sound is warned and dropped, and a hanging sound leaves its
chain unsettled, which makes the `Promise.all` aggregate never settle.
When every per-sound promise settles, the aggregate resolves with the
successes in input order. -/
def makeAudioElemsFromData (host : Host) (inst : Inst) (specs : List SoundSpec) :
    Settle (List SoundEntry) :=
  if specs.any (fun s => (makeAudioElem host inst s).isHang) then .hang
  else .ok (specs.filterMap fun s => (makeAudioElem host inst s).toOption)

/-- `Sounder.prototype.__makeAudioElems`: prepare every registry entry and
replace `this.__sounds` with the prepared list. -/
def makeAudioElems (host : Host) (inst : Inst) : Settle Inst :=
  (makeAudioElemsFromData host inst (inst.sounds.map (·.data))).map
    fun prepared => { inst with sounds := prepared }

/-- `Sounder.prototype.addSounds`: prepare media elements from exactly the
given specs (no registration-style validation or default merge happens on
this path) and push the prepared entries onto the registry; the returned
promise resolves with the instance when every per-sound promise settles,
and never settles when any per-sound preparation hangs. -/
def addSounds (host : Host) (inst : Inst) (specs : List SoundSpec) : Settle Inst :=
  (makeAudioElemsFromData host inst specs).map
    fun newEntries => { inst with sounds := inst.sounds ++ newEntries }

/-- A concrete sample entry: the raw spec `{name: "c"}` as prepared by
`addSounds` on `instSample` with an all-playable host. -/
def entrySampleC : SoundEntry :=
  { data := { name := some "c" }
    audio := some
      { attrs := [(.preload, .vBool true), (.volume, .vNum 2)]
        sources := [{ src := "/s/c.ogg", mime := "audio/ogg" }] } }

/-- `Sounder.prototype.__getSoundData`: first registry entry whose `name`
strictly equals the requested name, else a thrown lookup error. -/
def getSoundData : List SoundEntry → String → Except String SoundEntry
  | [], n => .error ("Failed at looking for sound data with name '" ++ n ++ "'.")
  | e :: rest, n => if e.data.name = some n then .ok e else getSoundData rest n

-- Promise combinators and the facade chains.

/-- JavaScript's `.catch(handler)` on a settled promise: a resolution
passes through, a rejection is replaced by a resolution with the handler's
return value (the source handlers call `console.warn` and return
`undefined`). -/
def pcatch {α : Type} (p : Except String α) (h : String → α) : Except String α :=
  match p with
  | .ok a => .ok a
  | .error e => .ok (h e)

/-- The `.then` handler of `Sounder.prototype.prepare` (lines 359-363):
on success set the flags and resolve with the instance (`some ()`). -/
def prepareThen (inner : Except String Unit) : Except String (Option Unit) :=
  inner.map fun _ => some ()

/-- The full settled outcome of the promise returned by `prepare()` as a
function of the settlement `inner` of `this.__makeAudioElems()`: the
`.catch` handler (lines 364-368) logs a warning and returns `undefined`,
so a failing run settles as a resolution carrying `none`. -/
def prepareChain (inner : Except String Unit) : Except String (Option Unit) :=
  pcatch (prepareThen inner) fun _ => none

/-- Whether the rejection handler installed by `Sounder.init`
(`sounder.prepare().catch(...)`, line 261) runs for a given settlement of
the aggregate preparation step. -/
def initRejectionHandlerRuns (inner : Except String Unit) : Bool :=
  match prepareChain inner with
  | .error _ => true
  | .ok _ => false

-- Preparation flags as a state machine (`__ready`, `__preparing`,
-- `__preparingPromise`), stepped by the events that touch them.

/-- The flag state of one instance.  `promiseId` identifies the in-flight
promise `this.__preparingPromise` (fresh promises are numbered by `runs`,
the count of preparation runs started so far). -/
structure MState where
  ready : Bool
  preparing : Bool
  promiseId : Option Nat
  runs : Nat
deriving DecidableEq, Repr

/-- The constructor's flag initialization (lines 134-148). -/
def initState : MState := { ready := false, preparing := false, promiseId := none, runs := 0 }

/-- What a call to `prepare()` / `wait()` hands back to its caller:
an immediately-resolved promise carrying the instance, or a completion
handle on a (possibly shared) preparation run. -/
inductive PrepRes
  | resolvedSelf
  | handle (id : Nat)
deriving DecidableEq, Repr

/-- `Sounder.prototype.prepare` (lines 353-369), restricted to its
synchronous effect on the flags: when ready, resolve with the instance;
when a run is in flight, return the stored promise; otherwise start a run,
set `__preparing`, store and return a fresh promise. -/
def prepare (s : MState) : PrepRes × MState :=
  if s.ready then (.resolvedSelf, s)
  else if s.preparing then (.handle (s.promiseId.getD s.runs), s)
  else (.handle s.runs,
    { ready := s.ready, preparing := true, promiseId := some s.runs, runs := s.runs + 1 })

/-- `Sounder.prototype.wait` (lines 343-347). -/
def wait (s : MState) : PrepRes × MState :=
  if s.ready then (.resolvedSelf, s)
  else if s.preparing then (.handle (s.promiseId.getD s.runs), s)
  else prepare s

/-- The events that touch the flags: a `prepare()` call, a `wait()` call,
and the settlement handlers of the in-flight run (`.then` sets
`__ready = true`; `.catch` resets both flags). -/
inductive Ev
  | evPrepare | evWait | evOk | evErr
deriving DecidableEq, Repr

/-- One event step.  Settlement handlers belong to the in-flight run, so
they fire only while `__preparing` holds. -/
def step (s : MState) : Ev → MState
  | .evPrepare => (prepare s).2
  | .evWait => (wait s).2
  | .evOk => if s.preparing then { s with ready := true, preparing := false } else s
  | .evErr => if s.preparing then { s with ready := false, preparing := false } else s

/-- A run of the single-threaded continuation chain from a state. -/
def stepAll (s : MState) (evs : List Ev) : MState := evs.foldl step s

/-- The flag invariant: the instance is never simultaneously ready and
preparing. -/
def FlagsInv (s : MState) : Prop := s.ready = true → s.preparing = false

-- Playback facade chains (`wait`/`play`/`pause`/`stop`), as settled
-- outcomes.  `inner` is the settlement of the aggregate per-sound
-- preparation step, `st` the flag state at call time, `hostPause` the
-- outcome of the host's `audio.pause()` call.

/-- The settled outcome of the promise a facade call awaits via
`this.wait()`: immediately resolved when ready, otherwise the outcome of
the (coalesced) `prepare()` chain, which resolves however the run
settles. -/
def waitChain (inner : Except String Unit) (st : MState) : Except String Unit :=
  if st.ready then .ok () else (prepareChain inner).map fun _ => ()

/-- `Sounder.prototype.play` (lines 278-282): the chain behind the call.
`play` returns `undefined` to its caller; inside the chain the lookup can
throw, and the promise returned by `audio.play()` is not returned into the
chain, so only the trailing `.catch` decides the settled outcome. -/
def playChain (inner : Except String Unit) (st : MState) (reg : List SoundEntry)
    (name : String) : Except String Unit :=
  pcatch
    (do
      let _ ← waitChain inner st
      let _e ← getSoundData reg name
      pure ())
    fun _ => ()

/-- The host `audio.play()` completion produced (and then dropped, never
observed by any handler in the source) by a `play(name)` call: present
exactly when the lookup succeeds. -/
def playDroppedCompletion (hostPlay : Except String Unit) (reg : List SoundEntry)
    (name : String) : Option (Except String Unit) :=
  match getSoundData reg name with
  | .ok _ => some hostPlay
  | .error _ => none

/-- `Sounder.prototype.pause` (lines 289-293): lookup and the synchronous
`audio.pause()` call both happen inside the guarded callback, and the
trailing `.catch` downgrades any rejection to a logged warning. -/
def pauseChain (inner : Except String Unit) (st : MState) (reg : List SoundEntry)
    (hostPause : Except String Unit) (name : String) : Except String Unit :=
  pcatch
    (do
      let _ ← waitChain inner st
      let _e ← getSoundData reg name
      hostPause)
    fun _ => ()

/-- `Sounder.prototype.stop` (lines 300-302): `pause(name)` followed by a
`.then` whose callback performs a second, unguarded `__getSoundData`
lookup before resetting `currentTime`; there is no `.catch` after it. -/
def stopChain (inner : Except String Unit) (st : MState) (reg : List SoundEntry)
    (hostPause : Except String Unit) (name : String) : Except String Unit := do
  let _ ← pauseChain inner st reg hostPause name
  let _e ← getSoundData reg name
  pure ()

-- Shared concrete sample values used by witnesses and counterexamples.

/-- A concrete host whose capability query answers `"probably"` for every
type string. -/
def hostProbably : Host := some fun _ => "probably"

/-- A concrete instance: empty registry, path `"/s/"`, instance-wide
volume default `2` (distinct from the static per-sound default `1`),
browser preference list `["ogg"]`. -/
def instSample : Inst where
  browserExts := ["ogg"]
  sounds := []
  path := "/s/"
  autoplayI := .vBool false
  loopI := false
  mutedI := false
  preloadI := true
  volumeI := 2

-- Helper lemmas about the flag state machine.

/-- Every event preserves the flag invariant. -/
theorem flagsInv_step (s : MState) (e : Ev) (h : FlagsInv s) : FlagsInv (step s e) := by
  cases e <;> simp only [step, prepare, wait] <;> split_ifs <;>
    first
      | exact h
      | (intro hr; simp_all [FlagsInv])

/-- A step from a ready state with the invariant keeps it ready and keeps
the invariant. -/
theorem ready_step (s : MState) (e : Ev) (hInv : FlagsInv s) (hr : s.ready = true) :
    (step s e).ready = true := by
  have hp := hInv hr
  cases e <;> simp [step, prepare, wait, hr, hp]

/-- The flag invariant is preserved by any run of events. -/
theorem flagsInv_stepAll (evs : List Ev) :
    ∀ s : MState, FlagsInv s → FlagsInv (stepAll s evs) := by
  induction evs with
  | nil => intro s h; exact h
  | cons e rest ih =>
      intro s h
      exact ih (step s e) (flagsInv_step s e h)

/-- From a ready state with the invariant, any run of events stays ready. -/
theorem ready_stepAll (evs : List Ev) :
    ∀ s : MState, FlagsInv s → s.ready = true → (stepAll s evs).ready = true := by
  induction evs with
  | nil => intro s _ hr; exact hr
  | cons e rest ih =>
      intro s hInv hr
      exact ih (step s e) (flagsInv_step s e hInv) (ready_step s e hInv hr)

/-- The constructor's initial flags satisfy the invariant. -/
theorem flagsInv_initState : FlagsInv initState := by
  intro h
  simp [initState] at h

/-- C1: at most one preparation run is in flight per instance: a
`prepare()` or `wait()` call made while a run is in progress returns the
stored in-flight promise and leaves the flags (and the count of started
runs) unchanged; starting a run from an idle state hands out one fresh
handle and every further `prepare()`/`wait()` during that run returns that
same handle without starting a second run; a call when ready is a no-op
that immediately resolves with the instance; and along every event trace
from the constructor's initial flags, once ready the instance stays
ready. -/
theorem C1_preparation_coalescing :
    ∀ (s : MState) (evs evs' : List Ev),
      (s.ready = false → s.preparing = true →
        prepare s = (.handle (s.promiseId.getD s.runs), s) ∧
        wait s = (.handle (s.promiseId.getD s.runs), s))
      ∧ (s.ready = false → s.preparing = false →
          (prepare s).1 = .handle s.runs ∧
          ((prepare s).2).runs = s.runs + 1 ∧
          prepare ((prepare s).2) = (.handle s.runs, (prepare s).2) ∧
          wait ((prepare s).2) = (.handle s.runs, (prepare s).2))
      ∧ (s.ready = true → prepare s = (.resolvedSelf, s) ∧ wait s = (.resolvedSelf, s))
      ∧ ((stepAll initState evs).ready = true →
          (stepAll (stepAll initState evs) evs').ready = true) := by
  intro s evs evs'
  refine ⟨?_, ?_, ?_, ?_⟩
  · intro hr hp
    constructor <;> simp [prepare, wait, hr, hp]
  · intro hr hp
    refine ⟨?_, ?_, ?_, ?_⟩ <;> simp [prepare, wait, hr, hp]
  · intro hr
    constructor <;> simp [prepare, wait, hr]
  · intro hr
    exact ready_stepAll evs' (stepAll initState evs)
      (flagsInv_stepAll evs initState flagsInv_initState) hr

/-- Witness for C1 at concrete inputs: a `prepare()` call in the middle of
a run returns the stored handle and changes nothing, and after a
successful run the instance stays ready across further prepare, failure
and wait events. -/
theorem C1_preparation_coalescing_witness :
    prepare { ready := false, preparing := true, promiseId := some 0, runs := 1 }
      = (.handle 0, { ready := false, preparing := true, promiseId := some 0, runs := 1 })
    ∧ (stepAll (stepAll initState [.evPrepare, .evOk]) [.evPrepare, .evErr, .evWait]).ready
        = true := by
  constructor
  · exact ((C1_preparation_coalescing
      { ready := false, preparing := true, promiseId := some 0, runs := 1 } [] []).1 rfl rfl).1
  · exact (C1_preparation_coalescing initState [.evPrepare, .evOk]
      [.evPrepare, .evErr, .evWait]).2.2.2 (by decide)

/-- C10: the promise returned by `prepare()` never rejects: whatever the
settlement of the aggregate preparation step, the chain resolves; when the
aggregate step fails, it resolves with `undefined` (no instance value) and
the settlement handler resets both flags; and the rejection handler
installed by `Sounder.init` never runs. -/
theorem C10_prepare_never_rejects :
    ∀ (inner : Except String Unit) (s : MState),
      (∃ v, prepareChain inner = .ok v)
      ∧ initRejectionHandlerRuns inner = false
      ∧ (∀ e, inner = .error e → prepareChain inner = .ok none)
      ∧ (s.preparing = true →
          (step s .evErr).ready = false ∧ (step s .evErr).preparing = false) := by
  intro inner s
  refine ⟨?_, ?_, ?_, ?_⟩
  · cases inner <;> simp [prepareChain, prepareThen, pcatch, Except.map]
  · cases inner <;>
      simp [initRejectionHandlerRuns, prepareChain, prepareThen, pcatch, Except.map]
  · intro e he
    subst he
    simp [prepareChain, prepareThen, pcatch, Except.map]
  · intro hp
    constructor <;> simp [step, hp]

/-- Witness for C10 at concrete inputs: a failing aggregate step settles
the `prepare()` promise as a resolution carrying no value, and resets the
flags of a preparing instance. -/
theorem C10_prepare_never_rejects_witness :
    prepareChain (.error "boom") = .ok none
    ∧ (step { ready := false, preparing := true, promiseId := some 0, runs := 1 }
        .evErr).ready = false := by
  constructor
  · exact (C10_prepare_never_rejects (.error "boom")
      { ready := false, preparing := true, promiseId := some 0, runs := 1 }).2.2.1 "boom" rfl
  · exact ((C10_prepare_never_rejects (.error "boom")
      { ready := false, preparing := true, promiseId := some 0, runs := 1 }).2.2.2 rfl).1

-- Format negotiation (claim C2).

/-- The scan loop returns the first extension whose capability check
passes, provided no capability check throws on the list. -/
theorem scanExts_spec (host : Host) :
    ∀ exts : List String, (∀ e ∈ exts, ∃ b, canPlayExt host e = .ok b) →
      scanExts host exts =
        match exts.find? (canPlayB host) with
        | some e => .ok e
        | none => .error "Failed at looking for audio extension browser can play!" := by
  intro exts
  induction exts with
  | nil => intro _; simp [scanExts]
  | cons e rest ih =>
      intro h
      obtain ⟨b, hb⟩ := h e (List.mem_cons_self e rest)
      have hcb : canPlayB host e = b := by simp [canPlayB, hb]
      cases b with
      | true =>
          simp [scanExts, hb, List.find?, hcb, Bind.bind, Except.bind, Pure.pure, Except.pure]
      | false =>
          have hrest := ih fun t ht => h t (List.mem_cons_of_mem e ht)
          simp [scanExts, hb, List.find?, hcb, hrest, Bind.bind, Except.bind]

/-- C2: `__getExtFromAvailableExts` returns the earliest element of the
ordered list for which the capability check is true, and fails when the
list is empty or no element is playable (the two failure cases the spec
groups as `NoPlayableFormat`); stated for lists on which the capability
check itself does not throw (catalog encodings). -/
theorem C2_first_playable_encoding :
    ∀ (host : Host) (exts : List String),
      (∀ e ∈ exts, ∃ b, canPlayExt host e = .ok b) →
      (exts = [] →
        getExtFromAvailableExts host exts = .error "There are no available extensions.")
      ∧ (∀ e, exts.find? (canPlayB host) = some e →
          getExtFromAvailableExts host exts = .ok e)
      ∧ (exts ≠ [] → exts.find? (canPlayB host) = none →
          getExtFromAvailableExts host exts
            = .error "Failed at looking for audio extension browser can play!") := by
  intro host exts h
  have hs := scanExts_spec host exts h
  refine ⟨?_, ?_, ?_⟩
  · intro he
    subst he
    simp [getExtFromAvailableExts]
  · intro e hf
    cases exts with
    | nil => simp at hf
    | cons a l =>
        rw [hf] at hs
        simpa [getExtFromAvailableExts] using hs
  · intro hne hf
    cases exts with
    | nil => exact absurd rfl hne
    | cons a l =>
        rw [hf] at hs
        simpa [getExtFromAvailableExts] using hs

/-- Witness for C2 at concrete inputs: with a host that reports every
type playable, the first element of the list is returned; the empty list
fails. -/
theorem C2_first_playable_encoding_witness :
    getExtFromAvailableExts hostProbably ["ogg", "mp3"] = .ok "ogg"
    ∧ getExtFromAvailableExts hostProbably [] = .error "There are no available extensions." := by
  constructor
  · exact (C2_first_playable_encoding hostProbably ["ogg", "mp3"]
      (by intro e he; fin_cases he <;> exact ⟨true, rfl⟩)).2.1 "ogg" (by decide)
  · exact (C2_first_playable_encoding hostProbably []
      (by intro e he; simp at he)).1 rfl

-- Registration (claim C9).

/-- C9: `__prepareSounds` fails with the invalid-sound-name error exactly
when some spec's `name` is falsy (absent or empty); when every spec is
named, it succeeds with the default-merged specs; and the constructor
propagates the failure. -/
theorem C9_register_requires_name :
    ∀ specs : List SoundSpec,
      ((∃ s ∈ specs, s.name.getD "" = "") →
        prepareSounds specs = .error "Got incorrect sound name.")
      ∧ ((∀ s ∈ specs, s.name.getD "" ≠ "") →
        prepareSounds specs = .ok (specs.map mergeDefSoundParams))
      ∧ (∀ (v ua : String) (p : Params), p.sounds = some specs →
          (∃ s ∈ specs, s.name.getD "" = "") →
          mkSounder v ua p = .error "Got incorrect sound name.") := by
  intro specs
  have main : ((∃ s ∈ specs, s.name.getD "" = "") →
        prepareSounds specs = .error "Got incorrect sound name.")
      ∧ ((∀ s ∈ specs, s.name.getD "" ≠ "") →
        prepareSounds specs = .ok (specs.map mergeDefSoundParams)) := by
    induction specs with
    | nil => simp [prepareSounds]
    | cons s rest ih =>
        constructor
        · rintro ⟨t, ht, hname⟩
          by_cases hs : s.name.getD "" = ""
          · simp [prepareSounds, hs]
          · rcases List.mem_cons.mp ht with rfl | hmem
            · exact absurd hname hs
            · have := ih.1 ⟨t, hmem, hname⟩
              simp [prepareSounds, hs, this]
        · intro h
          have hs := h s (List.mem_cons_self s rest)
          have := ih.2 fun t ht => h t (List.mem_cons_of_mem s ht)
          simp [prepareSounds, hs, this]
  refine ⟨main.1, main.2, ?_⟩
  intro v ua p hp hex
  have := main.1 hex
  simp [mkSounder, hp, this]

/-- Witness for C9 at concrete inputs: a nameless spec fails registration
and construction; a named spec registers as the default-merged entry. -/
theorem C9_register_requires_name_witness :
    prepareSounds [{ name := none }] = .error "Got incorrect sound name."
    ∧ prepareSounds [{ name := some "a" }]
        = .ok [mergeDefSoundParams { name := some "a" }]
    ∧ mkSounder "" "" { sounds := some [{ name := some "" }] }
        = .error "Got incorrect sound name." := by
  refine ⟨(C9_register_requires_name [{ name := none }]).1 (by decide), ?_, ?_⟩
  · exact (C9_register_requires_name [{ name := some "a" }]).2.1 (by decide)
  · exact (C9_register_requires_name [{ name := some "" }]).2.2 "" ""
      { sounds := some [{ name := some "" }] } rfl (by decide)

-- Browser classifier (claim C7).

/-- C7: the classifier returns exactly one of the seven identifiers via a
fixed priority chain: an Opera match forces the Chrome condition false;
`chrome` holds iff the user agent has the Chrome token, the vendor has the
Google token, and Opera does not match; then, in order, `firefox` (direct
user-agent match), `opera`, `explorer` (msie token), `edge`, `safari`
(Apple vendor token), and otherwise the empty string. -/
theorem C7_browser_classifier :
    ∀ v ua : String,
      (getBrowserName v ua = "chrome" ∨ getBrowserName v ua = "firefox"
        ∨ getBrowserName v ua = "opera" ∨ getBrowserName v ua = "safari"
        ∨ getBrowserName v ua = "explorer" ∨ getBrowserName v ua = "edge"
        ∨ getBrowserName v ua = "")
      ∧ (operaCond ua = true → getBrowserName v ua ≠ "chrome")
      ∧ (chromeCond v ua
          = (testCI ua "chrome" && testCI v "google inc." && !(operaCond ua)))
      ∧ (getBrowserName v ua = "chrome" ↔ chromeCond v ua = true)
      ∧ (getBrowserName v ua = "firefox"
          ↔ (chromeCond v ua = false ∧ testCI ua "firefox" = true))
      ∧ (getBrowserName v ua = "opera"
          ↔ (chromeCond v ua = false ∧ testCI ua "firefox" = false
              ∧ operaCond ua = true))
      ∧ (getBrowserName v ua = "explorer"
          ↔ (chromeCond v ua = false ∧ testCI ua "firefox" = false
              ∧ operaCond ua = false ∧ testCI ua "msie" = true))
      ∧ (getBrowserName v ua = "edge"
          ↔ (chromeCond v ua = false ∧ testCI ua "firefox" = false
              ∧ operaCond ua = false ∧ testCI ua "msie" = false
              ∧ testCI ua "edge" = true))
      ∧ (getBrowserName v ua = "safari"
          ↔ (chromeCond v ua = false ∧ testCI ua "firefox" = false
              ∧ operaCond ua = false ∧ testCI ua "msie" = false
              ∧ testCI ua "edge" = false ∧ testCI v "apple computer, inc." = true)) := by
  intro v ua
  cases hcr : testCI ua "chrome" <;> cases hg : testCI v "google inc." <;>
    cases ho : operaCond ua <;> cases hf : testCI ua "firefox" <;>
    cases hm : testCI ua "msie" <;> cases he : testCI ua "edge" <;>
    cases ha : testCI v "apple computer, inc." <;>
    simp [getBrowserName, chromeCond, hcr, hg, ho, hf, hm, he, ha]

/-- Witness for C7 at concrete inputs: a Chrome user agent with the Google
vendor classifies as `chrome`, and the same user agent with an Opera token
does not. -/
theorem C7_browser_classifier_witness :
    getBrowserName "Google Inc." "Mozilla Chrome/99" = "chrome"
    ∧ getBrowserName "Google Inc." "Mozilla Chrome OPR/55" ≠ "chrome" := by
  constructor
  · exact (C7_browser_classifier "Google Inc." "Mozilla Chrome/99").2.2.2.1.mpr (by decide)
  · exact (C7_browser_classifier "Google Inc." "Mozilla Chrome OPR/55").2.1 (by decide)

-- Constructor option parsing (claim C6).

/-- C6: evaluation of the constructor at the failing input.  The four
options `loop`, `muted`, `preload`, `volume` have the documented types and
fallbacks, and omitting everything yields the documented defaults
(false/false/false/true/1); but passing the boolean `autoplay: true` leaves
the instance default `false`, because line 99 tests
`typeof params.autoplay === "string"` instead of `"boolean"`, contradicting
the constructor's own `@param {boolean} [params.autoplay = false]`
documentation. -/
theorem C6_autoplay_typeof_bug :
    (mkSounder "" "" { autoplay := .vBool true }).map (·.autoplayI) = .ok (.vBool false)
    ∧ typeofString (JsVal.vBool true) = false
    ∧ (mkSounder "" "" {}).map
        (fun i => (i.autoplayI, i.loopI, i.mutedI, i.preloadI, i.volumeI))
        = .ok (.vBool false, false, false, true, 1)
    ∧ (mkSounder "" ""
        { loop := .vBool true, muted := .vBool true, preload := .vBool false,
          volume := .vNum (1/2) }).map
        (fun i => (i.loopI, i.mutedI, i.preloadI, i.volumeI))
        = .ok (true, true, false, 1/2) := by
  exact ⟨rfl, rfl, rfl, rfl⟩

-- Attribute resolution (claim C3).

/-- C3 counterexample: construct with the instance-wide default
`volume: 0.5` and one registered sound `"a"` carrying no volume override.
The claim says the value written for `volume` is the instance-level
default `0.5`; the code writes `1`, because registration stamped the
static per-sound default onto the entry, so the own-property test in
`__getAudioAttrVal` never reaches the instance field. -/
theorem C3_attr_fallback_counterexample :
    (mkSounder "" "" { volume := .vNum (1/2), sounds := some [{ name := some "a" }] }).map
      (fun inst =>
        (inst.volumeI,
         (makeAudioElems hostProbably inst).map fun inst2 =>
           inst2.sounds.map fun e => e.audio.map fun a => attrLookup a.attrs .volume))
      = .ok (1/2, .ok [some (some (.vNum 1))])
    ∧ JsVal.vNum 1 ≠ JsVal.vNum (1/2) := by
  constructor
  · rfl
  · intro h
    injection h with h
    norm_num at h

/-- C3 amended: for a constructor-registered sound the value written for
each of the five attributes is the spec's own override if present, else
the fixed per-sound default (`autoplay=false, loop=false, muted=false,
preload=true, volume=1`) stamped on by registration — the instance-level
configured default is never consulted on this path (it is consulted only
for unmerged sounds, i.e. those reaching element setup via `addSounds`);
and an attribute is written onto the element exactly when the resolved
value is truthy. -/
theorem C3_attr_resolution_amended :
    ∀ (inst : Inst) (s : SoundSpec) (attr : Attr),
      getAudioAttrVal inst attr (mergeDefSoundParams s)
        = (specAttr s attr).getD (defSoundParams attr)
      ∧ attrLookup (setAudioElemAttrs inst s {}).attrs attr
        = (if truthy (getAudioAttrVal inst attr s) then some (getAudioAttrVal inst attr s)
           else none) := by
  intro inst s attr
  constructor
  · cases attr <;> rfl
  · cases attr <;>
      simp only [setAudioElemAttrs, attrsList, List.foldl, setAudioElemAttr] <;>
      split_ifs <;> simp_all [attrLookup]

-- Playback facade error handling (claim C4).

/-- `.catch` always resolves. -/
theorem pcatch_isOk {α : Type} (p : Except String α) (h : String → α) :
    ∃ a, pcatch p h = .ok a := by
  cases p with
  | ok a => exact ⟨a, rfl⟩
  | error e => exact ⟨h e, rfl⟩

/-- C4 counterexample: `stop` on an unknown name returns a rejecting
completion: the guarded pause chain resolves, but the position-reset
continuation performs a second, unguarded lookup which throws, and no
handler follows it. -/
theorem C4_stop_rejects_counterexample :
    stopChain (.ok ()) initState [] (.ok ()) "missing"
      = .error "Failed at looking for sound data with name 'missing'." := rfl

/-- C4 amended: `play(name)` and `pause(name)` never throw and never
surface a rejecting completion for any registry, sound name, preparation
outcome and host pause outcome (lookup misses and host pause exceptions
are caught and only logged; a host `play()` rejection is dropped
unobserved rather than returned to the caller); `stop(name)` resolves
when the name is registered, but returns a rejecting completion on a
lookup miss. -/
theorem C4_playback_errors_amended :
    ∀ (inner : Except String Unit) (st : MState) (reg : List SoundEntry)
      (hostPause : Except String Unit) (name : String),
      (∃ u, playChain inner st reg name = .ok u)
      ∧ (∃ u, pauseChain inner st reg hostPause name = .ok u)
      ∧ (∀ e, getSoundData reg name = .ok e →
          stopChain inner st reg hostPause name = .ok ())
      ∧ (∀ msg, getSoundData reg name = .error msg →
          stopChain inner st reg hostPause name = .error msg) := by
  intro inner st reg hostPause name
  have hp : ∃ u, pauseChain inner st reg hostPause name = .ok u := pcatch_isOk _ _
  obtain ⟨u, hu⟩ := hp
  refine ⟨pcatch_isOk _ _, ⟨u, hu⟩, ?_, ?_⟩
  · intro e he
    simp [stopChain, hu, he, Bind.bind, Except.bind, Pure.pure, Except.pure]
  · intro msg hmsg
    simp [stopChain, hu, hmsg, Bind.bind, Except.bind]

/-- Witness for C4 (amended) at concrete inputs. -/
theorem C4_playback_errors_amended_witness :
    (∃ u, pauseChain (.ok ()) initState [] (.ok ()) "x" = .ok u)
    ∧ stopChain (.ok ()) initState [{ data := { name := some "a" } }] (.ok ()) "a" = .ok ()
    ∧ stopChain (.ok ()) initState [] (.ok ()) "x"
        = .error "Failed at looking for sound data with name 'x'." := by
  refine ⟨(C4_playback_errors_amended (.ok ()) initState [] (.ok ()) "x").2.1, ?_, ?_⟩
  · exact (C4_playback_errors_amended (.ok ()) initState
      [{ data := { name := some "a" } }] (.ok ()) "a").2.2.1 _ rfl
  · exact (C4_playback_errors_amended (.ok ()) initState [] (.ok ()) "x").2.2.2 _ rfl

-- Per-sound preparation analysis (used by claims C5 and C8).

/-- A successful `__makeAudioElemSource` call yields the source with path
`this.__path + name + "." + ext` and type string `"audio/" + ext`. -/
theorem makeAudioElemSource_ok (inst : Inst) (n ext : String) (src : SourceElem)
    (h : makeAudioElemSource inst n ext = .ok src) :
    src = { src := inst.path ++ n ++ "." ++ ext, mime := "audio/" ++ ext } := by
  by_cases hc : ext ∈ extsAll
  · simp [makeAudioElemSource, getSoundPath, hc, Bind.bind, Except.bind, Pure.pure,
      Except.pure] at h
    first
      | exact h
      | exact h.symm
  · simp [makeAudioElemSource, hc] at h

/-- Attribute application never touches the source children. -/
theorem setAudioElemAttrs_sources (inst : Inst) (s : SoundSpec) (a : AudioElem) :
    (setAudioElemAttrs inst s a).sources = a.sources := by
  simp only [setAudioElemAttrs, attrsList, List.foldl, setAudioElemAttr]
  split_ifs <;> rfl

/-- A resolving `__setAudioElemSource` call appends exactly one source,
built from the resolved playable extension. -/
theorem setAudioElemSource_ok (host : Host) (inst : Inst) (n : String) (a res : AudioElem)
    (h : setAudioElemSource host inst n a = .ok res) :
    ∃ ext, getAvailableExt host inst n = .ok ext
      ∧ res = { a with sources := a.sources ++
          [{ src := inst.path ++ n ++ "." ++ ext, mime := "audio/" ++ ext }] } := by
  cases h3 : getAvailableExt host inst n with
  | error msg => simp [setAudioElemSource, h3] at h
  | ok ext =>
      refine ⟨ext, rfl, ?_⟩
      by_cases hz : ext = ""
      · simp [setAudioElemSource, h3, hz] at h
      · cases h4 : makeAudioElemSource inst n ext with
        | error msg => simp [setAudioElemSource, h3, hz, h4] at h
        | ok src =>
            have hsrc := makeAudioElemSource_ok inst n ext src h4
            subst hsrc
            simp [setAudioElemSource, h3, hz, h4] at h
            first
              | exact h
              | exact h.symm

/-- A sound whose per-sound promise resolves keeps its data object
unchanged and owns an element. -/
theorem makeAudioElem_ok (host : Host) (inst : Inst) (s : SoundSpec) (e : SoundEntry)
    (h : makeAudioElem host inst s = .ok e) :
    e.data = s ∧ ∃ a, e.audio = some a := by
  cases h2 : setAudioElemSource host inst (s.name.getD "") (setAudioElemAttrs inst s {}) with
  | ok a2 =>
      simp only [makeAudioElem, h2, Settle.ok.injEq] at h
      subst h
      exact ⟨rfl, a2, rfl⟩
  | err msg => simp [makeAudioElem, h2] at h
  | hang => simp [makeAudioElem, h2] at h

/-- A sound with a falsy name never settles: `__getAvailableExts` rejects,
that rejection is orphaned inside `__setAudioElemSource`'s executor, and
the per-sound promise hangs, never pushing an entry and never firing the
per-sound warning. -/
theorem makeAudioElem_falsy_name (host : Host) (inst : Inst) (s : SoundSpec)
    (hn : s.name.getD "" = "") :
    makeAudioElem host inst s = .hang := by
  simp [makeAudioElem, setAudioElemSource, getAvailableExt, getAvailableExts, hn,
    Bind.bind, Except.bind]

/-- A promise whose `toOption` view is `some` resolved with that value. -/
theorem settleToOption_some {α : Type} (p : Settle α) (a : α)
    (h : p.toOption = some a) : p = .ok a := by
  cases p with
  | ok b => simp [Settle.toOption] at h; rw [h]
  | err e => simp [Settle.toOption] at h
  | hang => simp [Settle.toOption] at h

-- addSounds (claim C5).

/-- C5 counterexample: `addSounds` neither validates nor default-merges as
registration does.  Registration of a nameless spec fails with the
invalid-name error, while the promise returned by `addSounds` for the
same spec never settles (so it neither fails with that error nor resolves
with the facade); and registration stamps `volume = 1` onto a spec
without one, while `addSounds` appends the raw spec and the prepared
element reads the instance-configured volume (`2` here) instead. -/
theorem C5_addSounds_counterexample :
    prepareSounds [{ name := none }] = .error "Got incorrect sound name."
    ∧ addSounds hostProbably instSample [{ name := none }] = .hang
    ∧ prepareSounds [{ name := some "c" }] = .ok [mergeDefSoundParams { name := some "c" }]
    ∧ (mergeDefSoundParams { name := some "c" }).volume = some (.vNum 1)
    ∧ (addSounds hostProbably instSample [{ name := some "c" }]).map
        (fun i => i.sounds.map (·.data)) = .ok [{ name := some "c" }]
    ∧ ({ name := some "c" } : SoundSpec).volume = none
    ∧ (addSounds hostProbably instSample [{ name := some "c" }]).map
        (fun i => i.sounds.map fun e => e.audio.map fun a => attrLookup a.attrs .volume)
        = .ok [some (some (.vNum 2))] := by
  exact ⟨rfl, rfl, rfl, rfl, rfl, rfl, rfl⟩

/-- C5 amended: `addSounds(specs)` performs no registration-style
validation and no default merge: a spec whose name is missing or empty
does not fail with the invalid-name error — its per-sound preparation
never settles (the extension-resolution rejection is orphaned inside
`__setAudioElemSource`'s executor), so the promise returned by
`addSounds` never settles, appending nothing and logging nothing; and
when the call does resolve, the appended entries keep exactly the
caller's raw specs (so attribute values fell back to the instance
configuration at element setup, not to merged per-sound defaults), the
existing entries and the instance configuration are untouched, the
prepared new entries are appended in order, and the resolution value is
the facade instance for chaining. -/
theorem C5_addSounds_amended :
    ∀ (host : Host) (inst : Inst) (specs : List SoundSpec),
      ((∃ s ∈ specs, s.name.getD "" = "") → addSounds host inst specs = .hang)
      ∧ (∀ inst2, addSounds host inst specs = .ok inst2 →
          inst2.sounds.take inst.sounds.length = inst.sounds
          ∧ inst2.sounds.drop inst.sounds.length
              = specs.filterMap (fun s => (makeAudioElem host inst s).toOption)
          ∧ inst2.path = inst.path
          ∧ inst2.volumeI = inst.volumeI)
      ∧ (∀ e ∈ specs.filterMap (fun s => (makeAudioElem host inst s).toOption),
          e.data ∈ specs ∧ (∃ a, e.audio = some a) ∧ e.data.name.getD "" ≠ "") := by
  intro host inst specs
  refine ⟨?_, ?_, ?_⟩
  · rintro ⟨s, hs, hname⟩
    have hany : specs.any (fun s => (makeAudioElem host inst s).isHang) = true :=
      List.any_eq_true.mpr
        ⟨s, hs, by rw [makeAudioElem_falsy_name host inst s hname]; rfl⟩
    simp [addSounds, makeAudioElemsFromData, hany, Settle.map]
  · intro inst2 h
    by_cases hany : specs.any (fun s => (makeAudioElem host inst s).isHang) = true
    · simp [addSounds, makeAudioElemsFromData, hany, Settle.map] at h
    · simp [addSounds, makeAudioElemsFromData, hany, Settle.map] at h
      subst h
      exact ⟨List.take_left _ _, List.drop_left _ _, rfl, rfl⟩
  · intro e he
    obtain ⟨s, hs, hok⟩ := List.mem_filterMap.mp he
    have hok2 := settleToOption_some _ _ hok
    obtain ⟨hdata, ha⟩ := makeAudioElem_ok host inst s e hok2
    refine ⟨by rw [hdata]; exact hs, ha, ?_⟩
    intro hn
    have hsn : s.name.getD "" = "" := by rw [← hdata]; exact hn
    rw [makeAudioElem_falsy_name host inst s hsn] at hok2
    exact absurd hok2 (by simp)

/-- Witness for C5 (amended) at concrete inputs: a nameless spec makes
`addSounds` hang; for the resolving call on `{name: "c"}` the appended
entry follows the old registry and carries the raw spec. -/
theorem C5_addSounds_amended_witness :
    addSounds hostProbably instSample [{ name := none }] = .hang
    ∧ ({ instSample with sounds := [entrySampleC] } : Inst).sounds.drop 0 = [entrySampleC]
    ∧ entrySampleC.data ∈ ([{ name := some "c" }] : List SoundSpec) := by
  refine ⟨?_, ?_, ?_⟩
  · exact (C5_addSounds_amended hostProbably instSample [{ name := none }]).1 (by decide)
  · exact ((C5_addSounds_amended hostProbably instSample [{ name := some "c" }]).2.1
      { instSample with sounds := [entrySampleC] } rfl).2.1
  · exact ((C5_addSounds_amended hostProbably instSample [{ name := some "c" }]).2.2
      entrySampleC
      (by
        rw [show ([{ name := some "c" }] : List SoundSpec).filterMap
            (fun s => (makeAudioElem hostProbably instSample s).toOption)
          = [entrySampleC] from rfl]
        exact List.Mem.head _)).1

-- Source attachment (claim C8).

/-- C8: for every sound whose per-sound preparation succeeds (from a spec
not already owning a media handle, the documented input), exactly one
source is attached to its media element; its path is the instance path
prefix, then the sound name, a dot, and the resolved playable encoding,
and its MIME type string is `"audio/"` followed by that encoding. -/
theorem C8_single_source_path_and_mime :
    ∀ (host : Host) (inst : Inst) (s : SoundSpec) (e : SoundEntry),
      makeAudioElem host inst s = .ok e →
      ∃ (ext : String) (a : AudioElem),
        getAvailableExt host inst (s.name.getD "") = .ok ext
        ∧ e.audio = some a
        ∧ a.sources = [{ src := inst.path ++ s.name.getD "" ++ "." ++ ext,
                         mime := "audio/" ++ ext }] := by
  intro host inst s e h
  cases h2 : setAudioElemSource host inst (s.name.getD "") (setAudioElemAttrs inst s {}) with
  | err msg => simp [makeAudioElem, h2] at h
  | hang => simp [makeAudioElem, h2] at h
  | ok a2 =>
      simp only [makeAudioElem, h2, Settle.ok.injEq] at h
      subst h
      obtain ⟨ext, h3, hres⟩ := setAudioElemSource_ok host inst (s.name.getD "")
        (setAudioElemAttrs inst s {}) a2 h2
      refine ⟨ext, a2, h3, rfl, ?_⟩
      rw [hres]
      simp [setAudioElemAttrs_sources]

/-- Witness for C8 at concrete inputs: with the sample instance (path
`"/s/"`, preference list `["ogg"]`) and an all-playable host, the sound
`"a"` prepares with the single source `/s/a.ogg` of type `audio/ogg`. -/
theorem C8_single_source_path_and_mime_witness :
    ∃ (ext : String) (a : AudioElem),
      getAvailableExt hostProbably instSample "a" = .ok ext
      ∧ (⟨{ name := some "a" },
            some ⟨[(.preload, .vBool true), (.volume, .vNum 2)],
              [⟨"/s/a.ogg", "audio/ogg"⟩]⟩⟩ : SoundEntry).audio = some a
      ∧ a.sources = [{ src := instSample.path ++ "a" ++ "." ++ ext,
                       mime := "audio/" ++ ext }] :=
  C8_single_source_path_and_mime hostProbably instSample { name := some "a" }
    ⟨{ name := some "a" },
      some ⟨[(.preload, .vBool true), (.volume, .vNum 2)],
        [⟨"/s/a.ogg", "audio/ogg"⟩]⟩⟩ rfl

end Sounder
